import Mathlib

/-!
Verification development for the tweet-insight-daily repository.

The embedded code:
  - `S3DataDisplay` (client component, in the staged sources) —
    `getInitialDate`, `fetchData` with its single previous-day fallback, the
    initial-load effect, `changeDate`'s UTC calendar arithmetic, and the
    `newsEntries` display enumeration.
  - The `GET /api/s3-data` route handler, whose source file is not among the
    staged sources: it is modelled from the spec (§4.3 fetch algorithm, §6
    inbound/outbound contract, §7 error taxonomy). Where the staged sources
    corroborate a branch, the model follows them: the client consumes exactly
    the string `"Failed to read S3 JSON"` as its no-data marker for a missing
    object, the client's `getInitialDate` uses the same `^\d{4}-\d{2}-\d{2}$`
    regex the spec prescribes for validation, and the README documents the
    environment variables, with `AWS_REGION` defaulting to `us-east-1`.

External collaborators (the object-store network client and the JSON parser)
are modelled as function parameters, exactly as the spec describes them: a
store is a function from key to `found bytes / notFound / storeError`, and a
parser is a function from the payload string to an optional parsed value.
JavaScript `Date` parsing of `YYYY-MM-DDT00:00:00Z` strings yields an Invalid
Date for calendar-invalid components, which `toISOString` turns into a thrown
RangeError; this is modelled with `Option`.
-/

/-! ## Calendar dates (the arithmetic behind `changeDate` and the fallback) -/

/-- A calendar date as year / month / day, month and day 1-based, UTC. -/
structure DateYMD where
  year : Int
  month : Nat
  day : Nat
deriving DecidableEq, Repr

/-- Gregorian leap-year rule, as used by JavaScript `Date` UTC arithmetic. -/
def isLeap (y : Int) : Bool :=
  (y % 4 == 0 && y % 100 != 0) || y % 400 == 0

/-- Number of days in month `m` of year `y` (Gregorian, UTC). -/
def daysInMonth (y : Int) (m : Nat) : Nat :=
  if m = 2 then (if isLeap y then 29 else 28)
  else if m = 4 ∨ m = 6 ∨ m = 9 ∨ m = 11 then 30
  else 31

/-- A structurally valid calendar date: month in 1..12, day in 1..daysInMonth. -/
def validDate (d : DateYMD) : Bool :=
  1 ≤ d.month && d.month ≤ 12 && 1 ≤ d.day && d.day ≤ daysInMonth d.year d.month

/-- The next UTC calendar day: `currentDate.setDate(currentDate.getDate() + 1)`
in `changeDate('next')`. -/
def nextDate (d : DateYMD) : DateYMD :=
  if d.day < daysInMonth d.year d.month then ⟨d.year, d.month, d.day + 1⟩
  else if d.month < 12 then ⟨d.year, d.month + 1, 1⟩
  else ⟨d.year + 1, 1, 1⟩

/-- The previous UTC calendar day: `currentDate.setDate(currentDate.getDate() - 1)`
in `changeDate('prev')` and in the fallback branch of `fetchData`. -/
def prevDate (d : DateYMD) : DateYMD :=
  if 1 < d.day then ⟨d.year, d.month, d.day - 1⟩
  else if 1 < d.month then ⟨d.year, d.month - 1, daysInMonth d.year (d.month - 1)⟩
  else ⟨d.year - 1, 12, 31⟩

/-! ## Date strings -/

/-- Modelled from the spec: the date-resolution step of the API route (its
source file is not staged) — §4.3 step 1: the effective date is
`requestedDate` if explicitly supplied by the caller, otherwise `today()`. -/
def resolveDate (dateParam : Option String) (todayStr : String) : String :=
  match dateParam with
  | some s => s
  | none => todayStr

/-- The `NewsData` interface of `S3DataDisplay`: a capture timestamp and the
`latest_news` mapping from headline to body, in its JSON iteration order. -/
structure NewsData where
  timestamp : Int
  latest_news : List (String × String)
deriving DecidableEq, Repr

/-- Line 315: `const newsEntries = Object.entries(data.latest_news)`. -/
def newsEntries (nd : NewsData) : List (String × String) :=
  nd.latest_news

/-- The news-grid render: `newsEntries.map(([title, content], index) => ...)`
showing `index + 1` as the display index — an ordered list of
(1-based index, title, body). -/
def newsDisplayList (nd : NewsData) : List (Nat × String × String) :=
  (newsEntries nd).enum.map (fun p => (p.1 + 1, p.2.1, p.2.2))

/-! ## Concrete fixtures used by witnesses and counterexamples -/

/-- Resolving an explicitly supplied date parameter keeps it. -/
theorem resolveDate_some (s todayStr : String) :
    resolveDate (some s) todayStr = s :=
  rfl

/-- Every month has at least one day. -/
theorem daysInMonth_pos (y : Int) (m : Nat) : 1 ≤ daysInMonth y m := by
  unfold daysInMonth
  split_ifs <;> omega

/-- December always has 31 days. -/
theorem daysInMonth_twelve (y : Int) : daysInMonth y 12 = 31 := by
  norm_num [daysInMonth]

/-- C8: for every valid calendar date, the UTC day arithmetic used by
`changeDate` and the fallback satisfies both round-trips
`previous (next d) = d` and `next (previous d) = d`, rolling correctly over
month and year boundaries. -/
theorem date_roundtrip (d : DateYMD) (h : validDate d = true) :
    prevDate (nextDate d) = d ∧ nextDate (prevDate d) = d := by
  obtain ⟨y, m, day⟩ := d
  have hd : 1 ≤ m ∧ m ≤ 12 ∧ 1 ≤ day ∧ day ≤ daysInMonth y m := by
    simpa [validDate, and_assoc] using h
  obtain ⟨h1, h2, h3, h4⟩ := hd
  constructor
  · rw [nextDate]
    simp only
    split_ifs with hlt hm
    · rw [prevDate]
      simp only
      rw [if_pos (by omega)]
      simp
    · rw [prevDate]
      simp only
      rw [if_neg (by omega), if_pos (by omega)]
      simp only [Nat.add_sub_cancel, DateYMD.mk.injEq, eq_self_iff_true, true_and, and_true]
      first | trivial | omega
    · have hm12 : m = 12 := by omega
      subst hm12
      rw [prevDate]
      simp only
      rw [if_neg (by omega), if_neg (by omega)]
      have h31 := daysInMonth_twelve y
      simp only [DateYMD.mk.injEq, eq_self_iff_true, true_and, and_true]
      first | trivial | omega
  · rw [prevDate]
    simp only
    split_ifs with hgt hm
    · rw [nextDate]
      simp only
      rw [if_pos (by omega)]
      simp only [DateYMD.mk.injEq, eq_self_iff_true, true_and, and_true]
      first | trivial | omega
    · rw [nextDate]
      simp only
      rw [if_neg (by omega), if_pos (by omega)]
      simp only [DateYMD.mk.injEq, eq_self_iff_true, true_and, and_true]
      first | trivial | omega
    · have hm1 : m = 1 := by omega
      have hday : day = 1 := by omega
      subst hm1
      subst hday
      rw [nextDate]
      simp only
      have h31 := daysInMonth_twelve (y - 1)
      rw [if_neg (by omega), if_neg (by omega)]
      simp only [DateYMD.mk.injEq, eq_self_iff_true, true_and, and_true]
      first | trivial | omega

/-- Witness for C8 at the month-boundary date 2025-03-01 (whose previous day
is 2025-02-28, 2025 not being a leap year). -/
theorem date_roundtrip_witness :
    validDate ⟨2025, 3, 1⟩ = true ∧
    (prevDate (nextDate ⟨2025, 3, 1⟩) = ⟨2025, 3, 1⟩ ∧
     nextDate (prevDate ⟨2025, 3, 1⟩) = ⟨2025, 3, 1⟩) :=
  ⟨by decide, date_roundtrip ⟨2025, 3, 1⟩ (by decide)⟩

/-- Mapping the title/body projection over the indexed display entries
recovers the entry list unchanged. -/
theorem enumFrom_display_entries (n : Nat) (l : List (String × String)) :
    ((l.enumFrom n).map (fun p => (p.1 + 1, p.2.1, p.2.2))).map (fun e => (e.2.1, e.2.2))
      = l := by
  induction l generalizing n with
  | nil => rfl
  | cons x xs ih => simp [List.enumFrom, ih]

/-- The display indices assigned from position `n` are the consecutive
integers starting at `n + 1`. -/
theorem enumFrom_display_indices (n : Nat) (l : List (String × String)) :
    ((l.enumFrom n).map (fun p => (p.1 + 1, p.2.1, p.2.2))).map (fun e => e.1)
      = List.range' (n + 1) l.length := by
  induction l generalizing n with
  | nil => rfl
  | cons x xs ih => simp [List.enumFrom, List.range', ih]

/-- C9: the display transform enumerates the digest's entries in their
iteration order — projecting titles and bodies back out recovers exactly
`newsEntries` (nothing dropped or duplicated) — and assigns the consecutive
1-based indices `1, 2, ..., n`; on entries A ↦ x, B ↦ y the indices are
1 and 2. -/
theorem display_list_enumeration (nd : NewsData) :
    (newsDisplayList nd).map (fun e => (e.2.1, e.2.2)) = newsEntries nd ∧
    (newsDisplayList nd).map (fun e => e.1) = List.range' 1 (newsEntries nd).length ∧
    newsDisplayList ⟨0, [("A", "x"), ("B", "y")]⟩ = [(1, "A", "x"), (2, "B", "y")] := by
  refine ⟨?_, ?_, rfl⟩
  · rw [newsDisplayList, List.enum]
    exact enumFrom_display_entries 0 (newsEntries nd)
  · rw [newsDisplayList, List.enum]
    exact enumFrom_display_indices 0 (newsEntries nd)
